import Mathlib

/-!
Verification of the civic-issue-reporting client
(`src/citizen/src/components/issues/IssueForm.tsx` and
`src/citizen/src/components/issues/IssueList.tsx`).

The development shallowly embeds the two core pieces of logic:

* the filter/search pipeline of `IssueList` (the `useEffect` that derives
  `filteredIssues` from `issues` and the four filter inputs), and
* the submission pipeline of `IssueForm.handleSubmit` (local validation,
  user lookup, issue insert, best-effort image upload loop), together with
  the image-queue handlers `handleImageUpload` and `removeImage`.

Network effects are made explicit: `submitIssue` returns, besides its
result, the ordered trace of backend operations it performed, the image
records it created, and the state of the client-side id generator.
-/

namespace Citizen

/-! ## Strings: JavaScript `String.prototype.includes`

`hay.includes(needle)` is contiguous-substring containment.  We model it
on the character lists of the strings: `leadsWith l n` says `n` is an
initial segment of `l`, and `occursIn n l` says `n` occurs contiguously
somewhere in `l`. -/

def leadsWith : List Char → List Char → Bool
  | _, [] => true
  | [], _ :: _ => false
  | h :: hs, n :: ns => h == n && leadsWith hs ns

def occursIn (needle : List Char) : List Char → Bool
  | [] => needle.isEmpty
  | h :: t => leadsWith (h :: t) needle || occursIn needle t

/-- `hay.includes(needle)` on Lean strings (case-sensitive core). -/
def strIncludes (hay needle : String) : Bool :=
  occursIn needle.data hay.data

/-- `s.toLowerCase()`: lower each character (what `String.toLower` does,
written directly on the character list so it evaluates). -/
def strLower (s : String) : String :=
  String.mk (s.data.map Char.toLower)

theorem leadsWith_iff (l n : List Char) :
    leadsWith l n = true ↔ ∃ t, l = n ++ t := by
  induction n generalizing l with
  | nil => simp [leadsWith]
  | cons c cs ih =>
    cases l with
    | nil => simp [leadsWith]
    | cons h hs =>
      simp only [leadsWith, Bool.and_eq_true, beq_iff_eq, ih]
      constructor
      · rintro ⟨rfl, t, rfl⟩
        exact ⟨t, rfl⟩
      · rintro ⟨t, het⟩
        rw [List.cons_append] at het
        injection het with h1 h2
        exact ⟨h1, t, h2⟩

theorem occursIn_iff (n l : List Char) :
    occursIn n l = true ↔ ∃ s t, l = s ++ n ++ t := by
  induction l with
  | nil =>
    simp only [occursIn, List.isEmpty_iff]
    constructor
    · rintro rfl
      exact ⟨[], [], rfl⟩
    · rintro ⟨s, t, het⟩
      rcases List.append_eq_nil.mp (List.append_eq_nil.mp het.symm).1 with ⟨-, h2⟩
      exact h2
  | cons h t ih =>
    simp only [occursIn, Bool.or_eq_true, leadsWith_iff, ih]
    constructor
    · rintro (⟨u, hu⟩ | ⟨s, u, hu⟩)
      · exact ⟨[], u, by simpa using hu⟩
      · exact ⟨h :: s, u, by simp [hu]⟩
    · rintro ⟨s, u, hu⟩
      cases s with
      | nil => exact Or.inl ⟨u, by simpa using hu⟩
      | cons s0 ss =>
        right
        refine ⟨ss, u, ?_⟩
        rw [List.cons_append] at hu
        injection hu with h1 h2

/-! ## Data model: fetched Issue records and filter criteria -/

/-- One row fetched from the `issues` table, as consumed by `IssueList`
(nullable columns are `Option`s, matching the generated row type). -/
structure Issue where
  id : Nat
  title : String
  description : Option String
  category : Option String
  priority : Option String
  status : Option String
  deriving DecidableEq, Repr

/-- The four filter inputs of `IssueList` (`searchTerm`, `statusFilter`,
`categoryFilter`, `priorityFilter`). -/
structure FilterCriteria where
  searchTerm : String
  statusFilter : String
  categoryFilter : String
  priorityFilter : String
  deriving DecidableEq, Repr

/-- The search test of the filter `useEffect`:
`issue.title.toLowerCase().includes(searchTerm.toLowerCase()) ||
 issue.description?.toLowerCase().includes(searchTerm.toLowerCase())`
(an absent description yields `undefined`, which is falsy). -/
def searchPred (term : String) (i : Issue) : Bool :=
  strIncludes (strLower i.title) (strLower term) ||
    (match i.description with
      | some d => strIncludes (strLower d) (strLower term)
      | none => false)

/-- The filter `useEffect` of `IssueList`: starting from `issues`, apply
the search filter when `searchTerm` is non-empty, then the status,
category and priority filters when each is not `"all"`. -/
def deriveView (issues : List Issue) (c : FilterCriteria) : List Issue :=
  let f1 := if c.searchTerm ≠ "" then issues.filter (searchPred c.searchTerm) else issues
  let f2 := if c.statusFilter ≠ "all"
    then f1.filter (fun i => i.status == some c.statusFilter) else f1
  let f3 := if c.categoryFilter ≠ "all"
    then f2.filter (fun i => i.category == some c.categoryFilter) else f2
  let f4 := if c.priorityFilter ≠ "all"
    then f3.filter (fun i => i.priority == some c.priorityFilter) else f3
  f4

/-- Conjunction of the active predicates of `c` on one issue. -/
def matchesAll (c : FilterCriteria) (i : Issue) : Bool :=
  (c.searchTerm == "" || searchPred c.searchTerm i) &&
  ((c.statusFilter == "all" || i.status == some c.statusFilter) &&
  ((c.categoryFilter == "all" || i.category == some c.categoryFilter) &&
  (c.priorityFilter == "all" || i.priority == some c.priorityFilter)))

theorem filter_stage_eq {α : Type} (p : α → Bool) (b : Bool) (l : List α) :
    (if b = false then l.filter p else l) = l.filter (fun a => b || p a) := by
  cases b with
  | false => simp
  | true => simp

theorem deriveView_eq_filter (issues : List Issue) (c : FilterCriteria) :
    deriveView issues c = issues.filter (matchesAll c) := by
  unfold deriveView matchesAll
  rcases hs : (c.searchTerm == "") with _ | _ <;>
    rcases ht : (c.statusFilter == "all") with _ | _ <;>
      rcases hc : (c.categoryFilter == "all") with _ | _ <;>
        rcases hp : (c.priorityFilter == "all") with _ | _ <;>
  simp [ne_eq, ← beq_iff_eq (a := c.searchTerm), ← beq_iff_eq (a := c.statusFilter),
    ← beq_iff_eq (a := c.categoryFilter), ← beq_iff_eq (a := c.priorityFilter),
    hs, ht, hc, hp, List.filter_filter, Bool.and_assoc, Bool.and_comm, Bool.and_left_comm]

theorem matchesAll_iff (c : FilterCriteria) (i : Issue) :
    matchesAll c i = true ↔
      ((c.searchTerm ≠ "" → searchPred c.searchTerm i = true) ∧
       (c.statusFilter ≠ "all" → i.status = some c.statusFilter) ∧
       (c.categoryFilter ≠ "all" → i.category = some c.categoryFilter) ∧
       (c.priorityFilter ≠ "all" → i.priority = some c.priorityFilter)) := by
  unfold matchesAll
  by_cases h1 : c.searchTerm = "" <;> by_cases h2 : c.statusFilter = "all" <;>
    by_cases h3 : c.categoryFilter = "all" <;> by_cases h4 : c.priorityFilter = "all" <;>
      simp [h1, h2, h3, h4]

/-- Sample issues and criteria used to instantiate the general theorems
(the spec's two-issue filter scenario). -/
def issueLight : Issue :=
  { id := 1, title := "Broken light", description := none,
    category := some ("streetlight"), priority := some ("high"), status := some ("open") }

def issuePothole : Issue :=
  { id := 2, title := "Pothole on Main", description := none,
    category := some ("pothole"), priority := some ("low"), status := some ("resolved") }

def critOpen : FilterCriteria :=
  { searchTerm := "", statusFilter := "open", categoryFilter := "all", priorityFilter := "all" }

theorem scenario_status_open :
    deriveView [issueLight, issuePothole] critOpen = [issueLight] := by decide

/-- C3: the derived view is a subsequence of the source, membership in it is
exactly "member of the source satisfying every active predicate", and with all
four criteria inactive (`""`/`"all"`) the view is the source unchanged. -/
theorem deriveView_spec (src : List Issue) (c : FilterCriteria) :
    List.Sublist (deriveView src c) src ∧
    (∀ i, i ∈ deriveView src c ↔ i ∈ src ∧
      ((c.searchTerm ≠ "" → searchPred c.searchTerm i = true) ∧
       (c.statusFilter ≠ "all" → i.status = some c.statusFilter) ∧
       (c.categoryFilter ≠ "all" → i.category = some c.categoryFilter) ∧
       (c.priorityFilter ≠ "all" → i.priority = some c.priorityFilter))) ∧
    (c.searchTerm = "" ∧ c.statusFilter = "all" ∧ c.categoryFilter = "all" ∧
      c.priorityFilter = "all" → deriveView src c = src) := by
  refine ⟨?_, ?_, ?_⟩
  · rw [deriveView_eq_filter]
    exact List.filter_sublist src
  · intro i
    rw [deriveView_eq_filter, List.mem_filter, matchesAll_iff]
  · rintro ⟨h1, h2, h3, h4⟩
    simp [deriveView, h1, h2, h3, h4]

theorem deriveView_spec_witness :
    issueLight ∈ deriveView [issueLight, issuePothole] critOpen ∧
    List.Sublist (deriveView [issueLight, issuePothole] critOpen) [issueLight, issuePothole] :=
  ⟨((deriveView_spec [issueLight, issuePothole] critOpen).2.1 issueLight).mpr (by decide),
   (deriveView_spec [issueLight, issuePothole] critOpen).1⟩

theorem searchPred_iff (term : String) (i : Issue) :
    searchPred term i = true ↔
      (∃ s t, (strLower i.title).data = s ++ (strLower term).data ++ t) ∨
      (∃ d, i.description = some d ∧
        ∃ s t, (strLower d).data = s ++ (strLower term).data ++ t) := by
  unfold searchPred strIncludes
  cases hd : i.description with
  | none => simp [occursIn_iff]
  | some d => simp [occursIn_iff]

/-- C7: for non-empty search text the search predicate holds iff the lowered
text occurs contiguously in the lowered title or lowered description; with no
description only the title can match; and when `searchTerm` is empty the view
is constrained only by the other three filters. -/
theorem search_predicate_spec (i : Issue) (term : String) (src : List Issue)
    (c : FilterCriteria) :
    (term ≠ "" →
      (searchPred term i = true ↔
        (∃ s t, (strLower i.title).data = s ++ (strLower term).data ++ t) ∨
        (∃ d, i.description = some d ∧
          ∃ s t, (strLower d).data = s ++ (strLower term).data ++ t))) ∧
    (i.description = none →
      (searchPred term i = true ↔
        ∃ s t, (strLower i.title).data = s ++ (strLower term).data ++ t)) ∧
    (c.searchTerm = "" → ∀ j, j ∈ deriveView src c ↔ j ∈ src ∧
      ((c.statusFilter ≠ "all" → j.status = some c.statusFilter) ∧
       (c.categoryFilter ≠ "all" → j.category = some c.categoryFilter) ∧
       (c.priorityFilter ≠ "all" → j.priority = some c.priorityFilter))) := by
  refine ⟨fun _ => searchPred_iff term i, ?_, ?_⟩
  · intro hd
    rw [searchPred_iff, hd]
    simp
  · intro hc j
    rw [deriveView_eq_filter, List.mem_filter, matchesAll_iff, hc]
    simp

theorem search_predicate_spec_witness :
    (∃ s t, (strLower issueLight.title).data = s ++ (strLower ("broken")).data ++ t) ∨
    (∃ d, issueLight.description = some d ∧
      ∃ s t, (strLower d).data = s ++ (strLower ("broken")).data ++ t) :=
  ((search_predicate_spec issueLight ("broken") [issueLight] critOpen).1
    (by decide)).mp (by decide)

/-! ## `IssueList` fetch: load state and error surfacing -/

/-- The screen state touched by `fetchIssues`: the held collection and the
loading flag. -/
structure ListState where
  issues : List Issue
  loading : Bool
  deriving DecidableEq, Repr

/-- `fetchIssues` of `IssueList`: on success replace the collection with the
fetched data (`data || []`); on failure leave it untouched and emit the
"Failed to load issues" toast carrying the error message; in both cases
`setLoading(false)` runs (the `finally` block).  The second component is the
emitted toast description, `none` when no error toast is raised. -/
def fetchIssues (st : ListState) (result : Except String (Option (List Issue))) :
    ListState × Option String :=
  match result with
  | Except.ok data => ({ issues := data.getD [], loading := false }, none)
  | Except.error e => ({ st with loading := false }, some e)

/-- C8: a failed fetch surfaces a load error and leaves the held collection
unchanged; loading terminates whether the fetch succeeds or fails. -/
theorem fetchIssues_spec (st : ListState) (r : Except String (Option (List Issue))) :
    ((fetchIssues st r).1.loading = false) ∧
    (∀ e, r = Except.error e →
      (fetchIssues st r).1.issues = st.issues ∧ (fetchIssues st r).2 = some e) := by
  cases r with
  | ok d => exact ⟨rfl, fun e he => by cases he⟩
  | error e =>
    refine ⟨rfl, fun x hx => ?_⟩
    cases hx
    exact ⟨rfl, rfl⟩

theorem fetchIssues_spec_witness :
    (fetchIssues ⟨[issueLight], true⟩ (Except.error ("network down"))).1.issues
        = [issueLight] ∧
    (fetchIssues ⟨[issueLight], true⟩ (Except.error ("network down"))).2
        = some ("network down") :=
  (fetchIssues_spec ⟨[issueLight], true⟩ (Except.error ("network down"))).2
    ("network down") rfl

/-! ## `IssueForm`: image queue handlers -/

/-- A file selected in the image input; only the name matters to the
pipeline (it supplies the stored-object key's extension). -/
structure ImgFile where
  name : String
  deriving DecidableEq, Repr

/-- `handleImageUpload`: reject the whole selected batch (with the
"Too many images" toast, the second component) when it would push the queue
past 5; otherwise append the batch in selection order. -/
def handleImageUpload (images files : List ImgFile) : List ImgFile × Option String :=
  if files.length + images.length > 5 then (images, some ("Too many images"))
  else (images ++ files, none)

/-- `removeImage`: `images.filter((_, i) => i !== index)`. -/
def removeImage (images : List ImgFile) (idx : Nat) : List ImgFile :=
  (images.enum.filter (fun p => p.1 ≠ idx)).map Prod.snd

/-- A user interaction with the image queue. -/
inductive QueueOp where
  | add (files : List ImgFile)
  | remove (idx : Nat)

def applyQueueOp (images : List ImgFile) : QueueOp → List ImgFile
  | QueueOp.add files => (handleImageUpload images files).1
  | QueueOp.remove idx => removeImage images idx

/-! ## `IssueForm.handleSubmit`: the submission pipeline

The pipeline's network effects are reified as an ordered trace.  The
environment fixes what the collaborators answer: the authenticated user,
whether the issue insert errors, and whether each image's storage upload
and record insert error.  `crypto.randomUUID()` is modelled as a counter
threaded through the run: each call yields the current value and bumps it
(distinct values for distinct calls, which is all the code relies on). -/

structure Location where
  lat : Rat
  lng : Rat
  deriving DecidableEq, Repr

/-- The GeoJSON value built for the `location` column:
`{ type: "Point", coordinates: [lng, lat] }`. -/
structure GeoPoint where
  typ : String
  coordinates : List Rat
  deriving DecidableEq, Repr

/-- The record handed to `.from('issues').insert(...)`. -/
structure IssuePayload where
  id : Nat
  title : String
  description : String
  category : String
  priority : String
  user_id : String
  location : GeoPoint
  deriving DecidableEq, Repr

/-- A row of the `images` table created by the pipeline. -/
structure ImageRecord where
  id : Nat
  issue_id : Nat
  url : String
  deriving DecidableEq, Repr

/-- The form state read by `handleSubmit`. -/
structure Draft where
  title : String
  description : String
  category : String
  priority : String
  location : Option Location
  images : List ImgFile
  deriving Repr

/-- One backend operation, in the order the pipeline performs them.
`upsertProfile` is in the record store's vocabulary (the spec's Step 1)
so that its absence from every trace is expressible. -/
inductive NetOp where
  | getUser
  | upsertProfile (userId : String)
  | insertIssue (payload : IssuePayload)
  | uploadImage (fileName : String) (idx : Nat)
  | insertImageRecord (id : Nat) (issueId : Nat) (url : String)
  deriving DecidableEq, Repr

/-- Collaborator behaviour for one run. -/
structure Env where
  user : Option String
  insertIssueError : Option String
  uploadError : Nat → Option String
  imageInsertError : Nat → Option String
  now : Nat

/-- `getPublicUrl` on the `issue-images` bucket: a pure function of the key. -/
def publicUrl (fileName : String) : String :=
  ("public/issue-images/") ++ fileName

/-- The stored-object key `${issue.id}/${Date.now()}-${i}.${fileExt}`. -/
def storageKey (issueId : Nat) (now idx : Nat) (f : ImgFile) : String :=
  toString issueId ++ ("/") ++ toString now ++ ("-") ++ toString idx ++ (".") ++
    ((f.name.splitOn (".")).getLast?.getD (""))

/-- The `for` loop over the selected images: upload each in order; on upload
failure log and continue; on upload success insert an image record (a fresh
client id is drawn for it) and, if that insert fails, log and continue.
Returns the emitted trace, the created records, and the id counter. -/
def uploadLoop (env : Env) (issueId : Nat) :
    List ImgFile → Nat → Nat → List NetOp × List ImageRecord × Nat
  | [], _, u => ([], [], u)
  | f :: rest, idx, u =>
    let key := storageKey issueId env.now idx f
    match env.uploadError idx with
    | some _ =>
      let r := uploadLoop env issueId rest (idx + 1) u
      (NetOp.uploadImage key idx :: r.1, r.2.1, r.2.2)
    | none =>
      let url := publicUrl key
      let rid := u
      let r := uploadLoop env issueId rest (idx + 1) (u + 1)
      match env.imageInsertError idx with
      | some _ =>
        (NetOp.uploadImage key idx :: NetOp.insertImageRecord rid issueId url :: r.1,
          r.2.1, r.2.2)
      | none =>
        (NetOp.uploadImage key idx :: NetOp.insertImageRecord rid issueId url :: r.1,
          ⟨rid, issueId, url⟩ :: r.2.1, r.2.2)

/-- The issue record `handleSubmit` inserts: the client-generated id `u`,
the draft fields, the current user, and the GeoJSON point
`{ type: "Point", coordinates: [lng, lat] }`. -/
def mkPayload (d : Draft) (uid : String) (u : Nat) (loc : Location) : IssuePayload :=
  { id := u, title := d.title, description := d.description,
    category := d.category, priority := d.priority, user_id := uid,
    location := { typ := ("Point"), coordinates := [loc.lng, loc.lat] } }

/-- What a run of `handleSubmit` produced. -/
inductive SubmitResult where
  | validationError (title message : String)
  | failure (message : String)
  | success
  deriving DecidableEq, Repr

structure SubmitOutcome where
  result : SubmitResult
  trace : List NetOp
  records : List ImageRecord
  formReset : Bool
  nextUuid : Nat
  deriving Repr

/-- `handleSubmit` (lines 82–190 of `IssueForm.tsx`): the two local
validations, then `getUser`, then the issue insert with the GeoJSON point,
then the best-effort image loop; success resets the form.  `u` is the state
of the client-side id generator entering the run. -/
def submitIssue (d : Draft) (env : Env) (u : Nat) : SubmitOutcome :=
  match d.location with
  | none =>
    { result := SubmitResult.validationError ("Location required")
        ("Please select a location for the issue."),
      trace := [], records := [], formReset := false, nextUuid := u }
  | some loc =>
    if d.category = "" then
      { result := SubmitResult.validationError ("Category required")
          ("Please select a category for the issue."),
        trace := [], records := [], formReset := false, nextUuid := u }
    else
      match env.user with
      | none =>
        { result := SubmitResult.failure ("User not authenticated"),
          trace := [NetOp.getUser], records := [], formReset := false, nextUuid := u }
      | some uid =>
        let issueId := u
        let payload := mkPayload d uid issueId loc
        match env.insertIssueError with
        | some e =>
          { result := SubmitResult.failure e,
            trace := [NetOp.getUser, NetOp.insertIssue payload],
            records := [], formReset := false, nextUuid := u + 1 }
        | none =>
          let r := uploadLoop env issueId d.images 0 (u + 1)
          { result := SubmitResult.success,
            trace := NetOp.getUser :: NetOp.insertIssue payload :: r.1,
            records := r.2.1, formReset := true, nextUuid := r.2.2 }

/-- The indices of the upload operations of a trace, in trace order. -/
def uploadIndices (tr : List NetOp) : List Nat :=
  tr.filterMap (fun op => match op with
    | NetOp.uploadImage _ i => some i
    | _ => none)

/-- The ids of the issue payloads inserted by a trace, in trace order. -/
def insertedIssueIds (tr : List NetOp) : List Nat :=
  tr.filterMap (fun op => match op with
    | NetOp.insertIssue p => some p.id
    | _ => none)

def isUpsert : NetOp → Bool
  | NetOp.upsertProfile _ => true
  | _ => false

/-! ### Facts about the image loop -/

theorem uploadLoop_counter_le (env : Env) (issueId : Nat) (files : List ImgFile)
    (idx u : Nat) : u ≤ (uploadLoop env issueId files idx u).2.2 := by
  induction files generalizing idx u with
  | nil => exact Nat.le_refl u
  | cons f rest ih =>
    cases h1 : env.uploadError idx with
    | some e => simpa [uploadLoop, h1] using ih (idx + 1) u
    | none =>
      have h := ih (idx + 1) (u + 1)
      cases h2 : env.imageInsertError idx with
      | some e =>
        simp only [uploadLoop, h1, h2]
        omega
      | none =>
        simp only [uploadLoop, h1, h2]
        omega

theorem uploadLoop_uploadIndices (env : Env) (issueId : Nat) (files : List ImgFile)
    (idx u : Nat) :
    uploadIndices (uploadLoop env issueId files idx u).1 =
      List.range' idx files.length := by
  induction files generalizing idx u with
  | nil => simp [uploadLoop, uploadIndices, List.range']
  | cons f rest ih =>
    cases h1 : env.uploadError idx with
    | some e =>
      simp [uploadLoop, h1, uploadIndices, List.filterMap_cons, List.range']
      exact ih (idx + 1) u
    | none =>
      cases h2 : env.imageInsertError idx with
      | some e =>
        simp [uploadLoop, h1, h2, uploadIndices, List.filterMap_cons, List.range']
        exact ih (idx + 1) (u + 1)
      | none =>
        simp [uploadLoop, h1, h2, uploadIndices, List.filterMap_cons, List.range']
        exact ih (idx + 1) (u + 1)

theorem uploadLoop_records_issueId (env : Env) (issueId : Nat) (files : List ImgFile)
    (idx u : Nat) :
    ∀ rec ∈ (uploadLoop env issueId files idx u).2.1, rec.issue_id = issueId := by
  induction files generalizing idx u with
  | nil => simp [uploadLoop]
  | cons f rest ih =>
    cases h1 : env.uploadError idx with
    | some e => simpa [uploadLoop, h1] using ih (idx + 1) u
    | none =>
      cases h2 : env.imageInsertError idx with
      | some e => simpa [uploadLoop, h1, h2] using ih (idx + 1) (u + 1)
      | none =>
        intro rec hrec
        simp only [uploadLoop, h1, h2, List.mem_cons] at hrec
        rcases hrec with rfl | hrec
        · rfl
        · exact ih (idx + 1) (u + 1) rec hrec

theorem uploadLoop_records_length (env : Env) (issueId : Nat) (files : List ImgFile)
    (idx u : Nat) (h : ∀ i, env.imageInsertError i = none) :
    (uploadLoop env issueId files idx u).2.1.length =
      (List.range' idx files.length).countP (fun i => (env.uploadError i).isNone) := by
  induction files generalizing idx u with
  | nil => simp [uploadLoop]
  | cons f rest ih =>
    cases h1 : env.uploadError idx with
    | some e =>
      simp [uploadLoop, h1, List.range', List.countP_cons, ih (idx + 1) u]
    | none =>
      simp [uploadLoop, h1, h idx, List.range', List.countP_cons, ih (idx + 1) (u + 1)]

theorem uploadLoop_trace_ops (env : Env) (issueId : Nat) (files : List ImgFile)
    (idx u : Nat) :
    ∀ op ∈ (uploadLoop env issueId files idx u).1,
      (∃ k i, op = NetOp.uploadImage k i) ∨
      (∃ a b c, op = NetOp.insertImageRecord a b c) := by
  induction files generalizing idx u with
  | nil => simp [uploadLoop]
  | cons f rest ih =>
    intro op hop
    cases h1 : env.uploadError idx with
    | some e =>
      simp only [uploadLoop, h1, List.mem_cons] at hop
      rcases hop with rfl | hop
      · exact Or.inl ⟨_, _, rfl⟩
      · exact ih (idx + 1) u op hop
    | none =>
      cases h2 : env.imageInsertError idx with
      | some e =>
        simp only [uploadLoop, h1, h2, List.mem_cons] at hop
        rcases hop with rfl | rfl | hop
        · exact Or.inl ⟨_, _, rfl⟩
        · exact Or.inr ⟨_, _, _, rfl⟩
        · exact ih (idx + 1) (u + 1) op hop
      | none =>
        simp only [uploadLoop, h1, h2, List.mem_cons] at hop
        rcases hop with rfl | rfl | hop
        · exact Or.inl ⟨_, _, rfl⟩
        · exact Or.inr ⟨_, _, _, rfl⟩
        · exact ih (idx + 1) (u + 1) op hop

theorem uploadLoop_insertedIssueIds (env : Env) (issueId : Nat) (files : List ImgFile)
    (idx u : Nat) :
    insertedIssueIds (uploadLoop env issueId files idx u).1 = [] := by
  rw [insertedIssueIds, List.filterMap_eq_nil_iff]
  intro op hop
  rcases uploadLoop_trace_ops env issueId files idx u op hop with ⟨k, i, rfl⟩ | ⟨a, b, c, rfl⟩
  · rfl
  · rfl

theorem uploadLoop_no_upsert (env : Env) (issueId : Nat) (files : List ImgFile)
    (idx u : Nat) :
    ∀ op ∈ (uploadLoop env issueId files idx u).1, isUpsert op = false := by
  intro op hop
  rcases uploadLoop_trace_ops env issueId files idx u op hop with ⟨k, i, rfl⟩ | ⟨a, b, c, rfl⟩
  · rfl
  · rfl

theorem countP_isNone_add_isSome (f : Nat → Option String) (l : List Nat) :
    l.countP (fun i => (f i).isNone) + l.countP (fun i => (f i).isSome) = l.length := by
  induction l with
  | nil => rfl
  | cons a l ih =>
    simp only [List.countP_cons]
    cases f a <;> simp <;> omega

/-! ### The claims about the submission pipeline -/

/-- C2: a draft missing its location, or missing its category, is rejected
locally with its own validation toast and nothing else happens: no backend
operation, no record, no form reset, no id consumed. -/
theorem submitIssue_validation (d : Draft) (env : Env) (u : Nat) :
    (d.location = none →
      submitIssue d env u =
        { result := SubmitResult.validationError ("Location required")
            ("Please select a location for the issue."),
          trace := [], records := [], formReset := false, nextUuid := u }) ∧
    (d.location ≠ none → d.category = "" →
      submitIssue d env u =
        { result := SubmitResult.validationError ("Category required")
            ("Please select a category for the issue."),
          trace := [], records := [], formReset := false, nextUuid := u }) := by
  constructor
  · intro h
    simp [submitIssue, h]
  · intro h hcat
    cases hl : d.location with
    | none => exact absurd hl h
    | some loc => simp [submitIssue, hl, hcat]

theorem submitIssue_validation_witness :
    (submitIssue
        { title := ("t"), description := (""), category := ("pothole"),
          priority := ("medium"), location := none, images := [] }
        { user := some ("u1"), insertIssueError := none,
          uploadError := fun _ => none, imageInsertError := fun _ => none, now := 0 }
        7).trace = [] ∧
    (submitIssue
        { title := ("t"), description := (""), category := ("pothole"),
          priority := ("medium"), location := none, images := [] }
        { user := some ("u1"), insertIssueError := none,
          uploadError := fun _ => none, imageInsertError := fun _ => none, now := 0 }
        7).result
      = SubmitResult.validationError ("Location required")
          ("Please select a location for the issue.") := by
  have h := (submitIssue_validation
    { title := ("t"), description := (""), category := ("pothole"),
      priority := ("medium"), location := none, images := [] }
    { user := some ("u1"), insertIssueError := none,
      uploadError := fun _ => none, imageInsertError := fun _ => none, now := 0 }
    7).1 rfl
  rw [h]
  exact ⟨rfl, rfl⟩

/-- C1: on a valid draft with an authenticated user and a successful issue
insert, the submission succeeds whatever the per-image outcomes are; with
record inserts healthy and exactly `K` of the `N` uploads failing, exactly
`N − K` image records exist, all referencing the single created issue; and
every one of the `N` images gets its upload attempted, in order. -/
theorem submitIssue_partial_failure (d : Draft) (env : Env) (u : Nat) (loc : Location)
    (uid : String) (K : Nat)
    (hloc : d.location = some loc) (hcat : d.category ≠ "")
    (huser : env.user = some uid) (hins : env.insertIssueError = none)
    (hrec : ∀ i, env.imageInsertError i = none)
    (hK : (List.range d.images.length).countP (fun i => (env.uploadError i).isSome) = K) :
    (submitIssue d env u).result = SubmitResult.success ∧
    (submitIssue d env u).records.length = d.images.length - K ∧
    insertedIssueIds (submitIssue d env u).trace = [u] ∧
    (∀ rec ∈ (submitIssue d env u).records, rec.issue_id = u) ∧
    uploadIndices (submitIssue d env u).trace = List.range d.images.length := by
  have hs : submitIssue d env u =
      { result := SubmitResult.success,
        trace := NetOp.getUser :: NetOp.insertIssue (mkPayload d uid u loc) ::
          (uploadLoop env u d.images 0 (u + 1)).1,
        records := (uploadLoop env u d.images 0 (u + 1)).2.1,
        formReset := true,
        nextUuid := (uploadLoop env u d.images 0 (u + 1)).2.2 } := by
    simp [submitIssue, hloc, hcat, huser, hins]
  rw [hs]
  refine ⟨rfl, ?_, ?_, ?_, ?_⟩
  · have hlen := uploadLoop_records_length env u d.images 0 (u + 1) hrec
    have hsum := countP_isNone_add_isSome env.uploadError (List.range d.images.length)
    rw [← List.range_eq_range'] at hlen
    simp only [List.length_range] at hsum
    simp only [hlen]
    omega
  · simp only [insertedIssueIds, List.filterMap_cons]
    have h0 := uploadLoop_insertedIssueIds env u d.images 0 (u + 1)
    rw [insertedIssueIds] at h0
    simp [h0, mkPayload]
  · exact uploadLoop_records_issueId env u d.images 0 (u + 1)
  · simp only [uploadIndices, List.filterMap_cons]
    have h0 := uploadLoop_uploadIndices env u d.images 0 (u + 1)
    rw [uploadIndices] at h0
    simp [h0, List.range_eq_range']

/-- Concrete fixtures for instantiating the pipeline theorems. -/
def draftOk : Draft :=
  { title := ("Pothole"), description := (""), category := ("pothole"),
    priority := ("medium"), location := some { lat := 10, lng := 20 }, images := [] }

def envOk : Env :=
  { user := some ("user-1"), insertIssueError := none,
    uploadError := fun _ => none, imageInsertError := fun _ => none, now := 5 }

def envFail : Env :=
  { user := some ("user-1"), insertIssueError := some ("constraint violation"),
    uploadError := fun _ => none, imageInsertError := fun _ => none, now := 5 }

def envNoUser : Env :=
  { user := none, insertIssueError := none,
    uploadError := fun _ => none, imageInsertError := fun _ => none, now := 5 }

def draftTwoImages : Draft :=
  { title := ("Leaky pipe"), description := ("standing water"), category := ("water"),
    priority := ("high"), location := some { lat := 12, lng := 77 },
    images := [{ name := ("a.jpg") }, { name := ("b.png") }] }

def envOneUploadFails : Env :=
  { user := some ("user-9"), insertIssueError := none,
    uploadError := fun i => if i = 0 then some ("net error") else none,
    imageInsertError := fun _ => none, now := 1000 }

theorem submitIssue_partial_failure_witness :
    (submitIssue draftTwoImages envOneUploadFails 3).result = SubmitResult.success ∧
    (submitIssue draftTwoImages envOneUploadFails 3).records.length = 2 - 1 ∧
    insertedIssueIds (submitIssue draftTwoImages envOneUploadFails 3).trace = [3] ∧
    (∀ rec ∈ (submitIssue draftTwoImages envOneUploadFails 3).records,
      rec.issue_id = 3) ∧
    uploadIndices (submitIssue draftTwoImages envOneUploadFails 3).trace
      = List.range 2 := by
  have h := submitIssue_partial_failure draftTwoImages envOneUploadFails 3
    { lat := 12, lng := 77 } ("user-9") 1 rfl (by decide) rfl rfl (fun i => rfl)
    (by decide)
  simpa [draftTwoImages] using h

/-- C4: the pipeline is strictly sequential.  When the issue insert fails,
the run ends with that cause, its trace is exactly the user lookup followed
by the insert — no upload ever starts — and no image record exists.  When
the insert succeeds, the trace starts with the user lookup and the insert,
and the uploads then appear once per image, in selection order.  A retry
after an insert failure inserts a payload with a fresh, distinct id. -/
theorem submitIssue_sequencing (d d2 : Draft) (env env2 : Env) (u : Nat)
    (loc loc2 : Location) (uid uid2 : String)
    (hloc : d.location = some loc) (hcat : d.category ≠ "")
    (huser : env.user = some uid) :
    (∀ e, env.insertIssueError = some e →
      (submitIssue d env u).result = SubmitResult.failure e ∧
      (submitIssue d env u).trace =
        [NetOp.getUser, NetOp.insertIssue (mkPayload d uid u loc)] ∧
      uploadIndices (submitIssue d env u).trace = [] ∧
      (submitIssue d env u).records = []) ∧
    (env.insertIssueError = none →
      ∃ tr, (submitIssue d env u).trace =
          NetOp.getUser :: NetOp.insertIssue (mkPayload d uid u loc) :: tr ∧
        (mkPayload d uid u loc).id = u ∧
        uploadIndices (submitIssue d env u).trace = List.range d.images.length) ∧
    (∀ e, env.insertIssueError = some e → d2.location = some loc2 →
      d2.category ≠ "" → env2.user = some uid2 →
      insertedIssueIds (submitIssue d env u).trace = [u] ∧
      insertedIssueIds
        (submitIssue d2 env2 (submitIssue d env u).nextUuid).trace = [u + 1] ∧
      u + 1 ≠ u) := by
  refine ⟨?_, ?_, ?_⟩
  · intro e he
    have hs : submitIssue d env u =
        { result := SubmitResult.failure e,
          trace := [NetOp.getUser, NetOp.insertIssue (mkPayload d uid u loc)],
          records := [], formReset := false, nextUuid := u + 1 } := by
      simp [submitIssue, hloc, hcat, huser, he]
    rw [hs]
    exact ⟨rfl, rfl, rfl, rfl⟩
  · intro hins
    have hs : submitIssue d env u =
        { result := SubmitResult.success,
          trace := NetOp.getUser :: NetOp.insertIssue (mkPayload d uid u loc) ::
            (uploadLoop env u d.images 0 (u + 1)).1,
          records := (uploadLoop env u d.images 0 (u + 1)).2.1,
          formReset := true,
          nextUuid := (uploadLoop env u d.images 0 (u + 1)).2.2 } := by
      simp [submitIssue, hloc, hcat, huser, hins]
    rw [hs]
    refine ⟨(uploadLoop env u d.images 0 (u + 1)).1, rfl, rfl, ?_⟩
    simp only [uploadIndices, List.filterMap_cons]
    have h0 := uploadLoop_uploadIndices env u d.images 0 (u + 1)
    rw [uploadIndices] at h0
    simp [h0, List.range_eq_range']
  · intro e he hloc2 hcat2 huser2
    have hs : submitIssue d env u =
        { result := SubmitResult.failure e,
          trace := [NetOp.getUser, NetOp.insertIssue (mkPayload d uid u loc)],
          records := [], formReset := false, nextUuid := u + 1 } := by
      simp [submitIssue, hloc, hcat, huser, he]
    rw [hs]
    refine ⟨by simp [insertedIssueIds, mkPayload], ?_, by omega⟩
    cases hins2 : env2.insertIssueError with
    | some e2 =>
      simp [submitIssue, hloc2, hcat2, huser2, hins2, insertedIssueIds, mkPayload]
    | none =>
      have h0 := uploadLoop_insertedIssueIds env2 (u + 1) d2.images 0 (u + 1 + 1)
      rw [insertedIssueIds] at h0
      simp [submitIssue, hloc2, hcat2, huser2, hins2, insertedIssueIds, mkPayload, h0]

theorem submitIssue_sequencing_witness :
    (submitIssue draftOk envFail 4).result
        = SubmitResult.failure ("constraint violation") ∧
    uploadIndices (submitIssue draftOk envFail 4).trace = [] ∧
    insertedIssueIds (submitIssue draftOk envFail 4).trace = [4] ∧
    insertedIssueIds
        (submitIssue draftOk envOk (submitIssue draftOk envFail 4).nextUuid).trace
      = [5] := by
  have h := submitIssue_sequencing draftOk draftOk envFail envOk 4
    { lat := 10, lng := 20 } { lat := 10, lng := 20 } ("user-1") ("user-1")
    rfl (by decide) rfl
  have h3 := h.2.2 ("constraint violation") rfl rfl (by decide) rfl
  refine ⟨(h.1 ("constraint violation") rfl).1,
    (h.1 ("constraint violation") rfl).2.2.1, h3.1, ?_⟩
  simpa using h3.2.1

/-- C5 as written fails on the code: `handleSubmit` performs no profile
upsert at all.  This complete successful run's trace is exactly the user
lookup followed by the issue insert; no `upsertProfile` operation occurs
before (or after) the insert. -/
theorem submitIssue_no_upsert_counterexample :
    (submitIssue draftOk envOk 0).result = SubmitResult.success ∧
    ((submitIssue draftOk envOk 0).trace.all (fun op => !(isUpsert op))) = true ∧
    (submitIssue draftOk envOk 0).trace =
      [NetOp.getUser, NetOp.insertIssue (mkPayload draftOk ("user-1") 0
        { lat := 10, lng := 20 })] := by
  exact ⟨rfl, rfl, rfl⟩

/-- C5 amended: `handleSubmit` checks authentication before the insert and
fails with "User not authenticated" when no user is available (nothing else
happens); it never performs a profile upsert — profile rows come from the
backend trigger, not from this pipeline. -/
theorem submitIssue_identity_check (d : Draft) (env : Env) (u : Nat) (loc : Location)
    (hloc : d.location = some loc) (hcat : d.category ≠ "") :
    (env.user = none →
      (submitIssue d env u).result = SubmitResult.failure ("User not authenticated") ∧
      (submitIssue d env u).trace = [NetOp.getUser] ∧
      (submitIssue d env u).records = []) ∧
    (∀ op ∈ (submitIssue d env u).trace, isUpsert op = false) := by
  constructor
  · intro h
    simp [submitIssue, hloc, hcat, h]
  · intro op hop
    cases hu : env.user with
    | none =>
      simp [submitIssue, hloc, hcat, hu] at hop
      rw [hop]
      rfl
    | some uid =>
      cases hi : env.insertIssueError with
      | some e =>
        simp [submitIssue, hloc, hcat, hu, hi] at hop
        rcases hop with rfl | rfl <;> rfl
      | none =>
        simp [submitIssue, hloc, hcat, hu, hi] at hop
        rcases hop with rfl | rfl | hop
        · rfl
        · rfl
        · exact uploadLoop_no_upsert env u d.images 0 (u + 1) op hop

theorem submitIssue_identity_check_witness :
    (submitIssue draftOk envNoUser 0).result
        = SubmitResult.failure ("User not authenticated") ∧
    (submitIssue draftOk envNoUser 0).trace = [NetOp.getUser] ∧
    (submitIssue draftOk envNoUser 0).records = [] :=
  (submitIssue_identity_check draftOk envNoUser 0 { lat := 10, lng := 20 }
    rfl (by decide)).1 rfl

/-- C9: every successful submission inserted its geographic point as a
GeoJSON point — `type: "Point"` (WGS-84 by the GeoJSON standard) with
coordinates in longitude-then-latitude order. -/
theorem submitIssue_geometry (d : Draft) (env : Env) (u : Nat)
    (hsucc : (submitIssue d env u).result = SubmitResult.success) :
    ∃ loc, d.location = some loc ∧
      (∃ p, NetOp.insertIssue p ∈ (submitIssue d env u).trace) ∧
      (∀ p, NetOp.insertIssue p ∈ (submitIssue d env u).trace →
        p.location = { typ := ("Point"), coordinates := [loc.lng, loc.lat] }) := by
  cases hl : d.location with
  | none => simp [submitIssue, hl] at hsucc
  | some loc =>
    by_cases hcat : d.category = ""
    · simp [submitIssue, hl, hcat] at hsucc
    · cases hu : env.user with
      | none => simp [submitIssue, hl, hcat, hu] at hsucc
      | some uid =>
        cases hi : env.insertIssueError with
        | some e => simp [submitIssue, hl, hcat, hu, hi] at hsucc
        | none =>
          have hs : submitIssue d env u =
              { result := SubmitResult.success,
                trace := NetOp.getUser :: NetOp.insertIssue (mkPayload d uid u loc) ::
                  (uploadLoop env u d.images 0 (u + 1)).1,
                records := (uploadLoop env u d.images 0 (u + 1)).2.1,
                formReset := true,
                nextUuid := (uploadLoop env u d.images 0 (u + 1)).2.2 } := by
            simp [submitIssue, hl, hcat, hu, hi]
          rw [hs]
          refine ⟨loc, rfl, ⟨mkPayload d uid u loc, by simp⟩, ?_⟩
          intro p hp
          simp only [List.mem_cons] at hp
          rcases hp with hp | hp | hp
          · exact absurd hp (by simp)
          · injection hp with h
            rw [h]
            rfl
          · rcases uploadLoop_trace_ops env u d.images 0 (u + 1) _ hp with
              ⟨k, i, hk⟩ | ⟨a, b, c, hk⟩ <;> exact absurd hk (by simp)

theorem submitIssue_geometry_witness :
    ∃ loc, draftOk.location = some loc ∧
      (∃ p, NetOp.insertIssue p ∈ (submitIssue draftOk envOk 0).trace) ∧
      (∀ p, NetOp.insertIssue p ∈ (submitIssue draftOk envOk 0).trace →
        p.location = { typ := ("Point"), coordinates := [loc.lng, loc.lat] }) :=
  submitIssue_geometry draftOk envOk 0 rfl

/-! ### The claims about the image queue -/

/-- C6 as stated fails on the code: with one image queued, selecting five
more trips the "too many images" rejection, and the queue is left holding
one image, not five — `handleImageUpload` rejects the whole batch and
leaves the queue as it was. -/
theorem image_limit_counterexample :
    (handleImageUpload [{ name := ("q1.jpg") }]
        [{ name := ("a.jpg") }, { name := ("b.jpg") }, { name := ("c.jpg") },
         { name := ("d.jpg") }, { name := ("e.jpg") }]).2
      = some ("Too many images") ∧
    (handleImageUpload [{ name := ("q1.jpg") }]
        [{ name := ("a.jpg") }, { name := ("b.jpg") }, { name := ("c.jpg") },
         { name := ("d.jpg") }, { name := ("e.jpg") }]).1
      = [{ name := ("q1.jpg") }] ∧
    (handleImageUpload [{ name := ("q1.jpg") }]
        [{ name := ("a.jpg") }, { name := ("b.jpg") }, { name := ("c.jpg") },
         { name := ("d.jpg") }, { name := ("e.jpg") }]).1.length ≠ 5 := by
  exact ⟨rfl, rfl, by decide⟩

/-- C6 amended: a selection that would push the queue past 5 is rejected as
a whole at selection time with the "too many images" toast, and the queue
is left unchanged (so 5 images remain queued exactly when 5 already were,
as when a 6th image is added to 5 queued ones); the submission pipeline is
not involved. -/
theorem image_limit_spec (images files : List ImgFile) :
    (files.length + images.length > 5 →
      handleImageUpload images files = (images, some ("Too many images"))) ∧
    (images.length = 5 → files ≠ [] →
      handleImageUpload images files = (images, some ("Too many images"))) := by
  constructor
  · intro h
    simp [handleImageUpload, h]
  · intro h5 hne
    have hgt : files.length + images.length > 5 := by
      cases files with
      | nil => exact absurd rfl hne
      | cons a l =>
        simp only [List.length_cons, h5]
        omega
    simp [handleImageUpload, hgt]

theorem image_limit_spec_witness :
    handleImageUpload
        [{ name := ("1.jpg") }, { name := ("2.jpg") }, { name := ("3.jpg") },
         { name := ("4.jpg") }, { name := ("5.jpg") }]
        [{ name := ("6.jpg") }]
      = ([{ name := ("1.jpg") }, { name := ("2.jpg") }, { name := ("3.jpg") },
          { name := ("4.jpg") }, { name := ("5.jpg") }],
         some ("Too many images")) :=
  (image_limit_spec
      [{ name := ("1.jpg") }, { name := ("2.jpg") }, { name := ("3.jpg") },
       { name := ("4.jpg") }, { name := ("5.jpg") }]
      [{ name := ("6.jpg") }]).2 rfl (by decide)

theorem queue_length_le (st : List ImgFile) (ops : List QueueOp)
    (h : st.length ≤ 5) : (List.foldl applyQueueOp st ops).length ≤ 5 := by
  induction ops generalizing st with
  | nil => exact h
  | cons op rest ih =>
    apply ih
    cases op with
    | add files =>
      by_cases hc : files.length + st.length > 5
      · simpa [applyQueueOp, handleImageUpload, hc] using h
      · simp only [applyQueueOp, handleImageUpload, if_neg hc, List.length_append]
        omega
    | remove idx =>
      have hle : (removeImage st idx).length ≤ st.length := by
        unfold removeImage
        rw [List.length_map]
        calc (st.enum.filter (fun p => p.1 ≠ idx)).length
            ≤ st.enum.length := List.length_filter_le _ _
          _ = st.length := List.enum_length
      exact le_trans hle h

/-- C10: starting empty, no sequence of additions and removals ever takes
the queue past 5 images, and an addition is all-or-nothing — an over-limit
batch leaves the queue untouched, an in-limit batch is appended whole, in
selection order. -/
theorem image_queue_spec (ops : List QueueOp) (images files : List ImgFile) :
    (List.foldl applyQueueOp [] ops).length ≤ 5 ∧
    (files.length + images.length > 5 →
      (handleImageUpload images files).1 = images) ∧
    (files.length + images.length ≤ 5 →
      (handleImageUpload images files).1 = images ++ files) := by
  refine ⟨queue_length_le [] ops (by simp), ?_, ?_⟩
  · intro h
    simp [handleImageUpload, h]
  · intro h
    rw [handleImageUpload, if_neg (by omega)]

theorem image_queue_spec_witness :
    (List.foldl applyQueueOp []
        [QueueOp.add [{ name := ("a") }, { name := ("b") }],
         QueueOp.add [{ name := ("c") }, { name := ("d") }, { name := ("e") },
           { name := ("f") }, { name := ("g") }],
         QueueOp.remove 0]).length ≤ 5 ∧
    (handleImageUpload [{ name := ("a") }] [{ name := ("b") }]).1
      = [{ name := ("a") }] ++ [{ name := ("b") }] :=
  ⟨(image_queue_spec
      [QueueOp.add [{ name := ("a") }, { name := ("b") }],
       QueueOp.add [{ name := ("c") }, { name := ("d") }, { name := ("e") },
         { name := ("f") }, { name := ("g") }],
       QueueOp.remove 0] [{ name := ("a") }] [{ name := ("b") }]).1,
   (image_queue_spec
      [QueueOp.add [{ name := ("a") }, { name := ("b") }],
       QueueOp.add [{ name := ("c") }, { name := ("d") }, { name := ("e") },
         { name := ("f") }, { name := ("g") }],
       QueueOp.remove 0] [{ name := ("a") }] [{ name := ("b") }]).2.2 (by decide)⟩

end Citizen
